import Mathlib

/-
Verification of the `errors` Go library (jurado-dev/errors), settled design:
the `Err` record with functional-options construction (`error_types.go`) and
the accessor/stack protocol (`error.go`).

Modelling conventions:
* A Go `error` interface value is `Option GoError`: `none` is the nil
  interface, `some e` a non-nil error.  `GoError.typed cat rec` is one of the
  seven pointer types (`*BadRequest`, ..., `*NoContent`) wrapping an embedded
  `Err` record; `GoError.ext id msg` is any other (external) error value,
  where `id` models the identity of the value and `msg` the string returned
  by its `Error()` method.
* Go strings are Lean `String`s; `len`/slicing are counted in characters
  (the Go source counts bytes; the two agree on ASCII data).
* The `mu *sync.RWMutex` field of `Err` is modelled by `mu : Bool`:
  `false` is the nil pointer (the Go zero value), `true` an initialized
  mutex.  Calling `Lock`/`RLock` through a nil pointer is a runtime panic in
  Go; operations that take the lock therefore return a `RunResult`, whose
  `nilDeref` constructor models that panic.  Nothing in the source ever
  initializes `mu`, so it is `false` in every reachable record.
* In-place mutation through the shared `*Err` is modelled functionally:
  `Stack` returns the updated error value (the Go function mutates the
  record behind the returned reference).
-/

namespace Errors

/-- Trace entry: embeds `ErrTrace` from `error.go` (`File`, `Function`,
`Line` with JSON tags).  The Go zero value is `⟨"", "", 0⟩`. -/
structure ErrTrace where
  File : String
  Function : String
  Line : Int
deriving DecidableEq

/-- The seven error categories of `error_types.go`: the pointer types
`*BadRequest`, `*Unauthorized`, `*NotFound`, `*Conflict`, `*Internal`,
`*Fatal`, `*NoContent`, all of which implement the `TypedError` interface. -/
inductive Category where
  | badRequest
  | unauthorized
  | notFound
  | conflict
  | internal
  | fatal
  | noContent
deriving DecidableEq

/-- The `Err` struct of `error.go` (settled version), parametrized by the
type of wrapped error values to break the recursive knot with `GoError`.
Field defaults are the Go zero value produced by `var err Err`:
empty strings, zero trace, nil slice, nil `Wrapped`, code 0 and a nil
mutex pointer (`mu := false`). -/
structure ErrData (ε : Type) where
  Cause : String := ""
  Message : String := ""
  StackMessage : String := ""
  Trace : ErrTrace := ⟨"", "", 0⟩
  Stack : List ErrTrace := []
  Wrapped : Option ε := none
  Code : Int := 0
  mu : Bool := false

/-- A non-nil Go error value: either one of the seven typed errors of this
package (a pointer to a category wrapper embedding an `Err` record), or an
external error identified by `id` whose `Error()` method returns `msg`.
External errors in this universe expose no `Unwrap` method. -/
inductive GoError where
  | typed (cat : Category) (rec : ErrData GoError)
  | ext (id : Nat) (msg : String)

/-- The `Err` record as used by the library. -/
abbrev Err := ErrData GoError

/-- The embedded record of a wrapped error is structurally smaller; used for
termination of the chain-walking functions. -/
theorem sizeOf_wrapped_lt {r : Err} {w : GoError}
    (h : r.Wrapped = some w) : sizeOf w < sizeOf r := by
  rcases r with ⟨c1, c2, c3, c4, c5, c6, c7, c8⟩
  simp only at h
  subst h
  simp
  omega

/-- Embeds `maxCauseLength = 200` from `error.go`. -/
def maxCauseLength : Nat := 200

/-- Embeds the `Error()` method of `*Err` (settled `error.go`): with no
trace (`Trace.Line == 0`) just the message; otherwise the cause (truncated
for display to 200 characters plus `"..."` when longer), omitted entirely
when empty, followed by the message and the `(at function:line)` suffix. -/
def Err.Error (e : Err) : String :=
  if e.Trace.Line = 0 then
    e.Message
  else
    let cause := if maxCauseLength < e.Cause.length
                 then e.Cause.take maxCauseLength ++ "..."
                 else e.Cause
    if cause = "" then
      e.Message ++ " (at " ++ e.Trace.Function ++ ":" ++ toString e.Trace.Line ++ ")"
    else
      cause ++ ": " ++ e.Message ++ " (at " ++ e.Trace.Function ++ ":" ++ toString e.Trace.Line ++ ")"

/-- Dynamic dispatch of the `Error()` method on a non-nil error value: a
typed error renders via `Err.Error`, an external error returns its own
message. -/
def errorString : GoError → String
  | .typed _ r => Err.Error r
  | .ext _ m => m

/-- Embeds `extractErr` (settled `error.go`): the type assertion
`err.(TypedError)` succeeds exactly for the seven typed errors and yields
the embedded record; it fails for nil and for external errors. -/
def extractErr : Option GoError → Option Err
  | some (.typed _ r) => some r
  | _ => none

/-- Result of running an operation that takes the record's mutex:
`ok` is normal completion, `nilDeref` is the runtime panic raised by
`e.mu.Lock()` / `e.mu.RLock()` when the `mu` pointer is nil. -/
inductive RunResult (α : Type) where
  | ok (val : α)
  | nilDeref

/-- Embeds `Stack` (settled `error.go`): nil and non-typed errors are
returned unchanged; for a typed error the code takes the lock (panicking if
`mu` is nil) and appends the trace to the shared record, returning the same
error. -/
def Stack (err : Option GoError) (trace : ErrTrace) : RunResult (Option GoError) :=
  match err with
  | none => .ok none
  | some e =>
    match e with
    | .typed c r =>
      if r.mu then .ok (some (.typed c { r with Stack := r.Stack ++ [trace] }))
      else .nilDeref
    | .ext i m => .ok (some (.ext i m))

/-- Embeds `GetStack` (settled `error.go`): empty list for nil and
non-typed errors; for a typed error the code takes the read lock
(panicking if `mu` is nil) and returns a copy of the stack slice (a copy
and the original are the same value in this functional model). -/
def GetStack (err : Option GoError) : RunResult (List ErrTrace) :=
  match err with
  | none => .ok []
  | some e =>
    match extractErr (some e) with
    | none => .ok []
    | some r => if r.mu then .ok r.Stack else .nilDeref

/-- Embeds `Unwrap` (settled `error.go`): nil stays nil; an error that is
not typed, or whose cause and message are both empty, is returned itself;
otherwise the stored `Wrapped` value is returned. -/
def Unwrap (err : Option GoError) : Option GoError :=
  match err with
  | none => none
  | some e =>
    match extractErr (some e) with
    | none => some e
    | some r => if r.Cause = "" ∧ r.Message = "" then some e else r.Wrapped

/-- Embeds `GetCause` (settled `error.go`). -/
def GetCause (err : Option GoError) : String :=
  match err with
  | none => ""
  | some e =>
    match extractErr (some e) with
    | none => errorString e
    | some r =>
      if r.Cause = "" ∧ r.Message ≠ "" then r.Message
      else if r.Cause = "" ∧ r.Message = "" then errorString e
      else r.Cause

/-- Default status code fixed by each category's `GetCode` method in
`error_types.go`. -/
def defaultCode : Category → Int
  | .badRequest => 400
  | .unauthorized => 403
  | .notFound => 404
  | .conflict => 409
  | .internal => 500
  | .fatal => 500
  | .noContent => 204

/-- Embeds the `GetCode` method shared by the seven wrapper types: the
stored code when non-zero, the category default otherwise. -/
def typedGetCode (c : Category) (r : Err) : Int :=
  if r.Code ≠ 0 then r.Code else defaultCode c

/-- Embeds the free function `GetCode` (settled `error.go`): 0 for nil and
non-typed errors, otherwise the typed error's `GetCode` method. -/
def GetCode : Option GoError → Int
  | none => 0
  | some (.typed c r) => typedGetCode c r
  | some (.ext _ _) => 0

/-- Functional option (`Option` in `error_types.go`).  The source's closed
set of exported option constructors is embedded as a closed inductive type:
`Cause` carries the (possibly nil) error argument, `Msg`/`MsgF` the
(already formatted) message, `WithTrace` the trace entry the location
provider `Trace()` returns at application time, `Code` the status code. -/
inductive GoOption where
  | Cause (err : Option GoError)
  | Msg (msg : String)
  | MsgF (msg : String)
  | WithTrace (t : ErrTrace)
  | Code (code : Int)

/-- Applies one option to the record, embedding the closures returned by
`Cause`, `Msg`, `MsgF`, `WithTrace` and `Code` in `error_types.go`:
`Cause` is a no-op on a nil argument and otherwise stores the rendered
message and the error value itself; `WithTrace` overwrites `Trace` and
appends to `Stack`; `Code` overwrites `Code`. -/
def applyOpt (e : Err) (o : GoOption) : Err :=
  match o with
  | .Cause err =>
    match err with
    | none => e
    | some w => { e with Cause := errorString w, Wrapped := some w }
  | .Msg m => { e with Message := m }
  | .MsgF m => { e with Message := m }
  | .WithTrace t => { e with Trace := t, Stack := e.Stack ++ [t] }
  | .Code c => { e with Code := c }

/-- Embeds `applyOptions` (`error_types.go`): folds the options, in order,
over the zero-value record `var err Err`. -/
def applyOptions (opts : List GoOption) : Err :=
  opts.foldl applyOpt {}

/-- Common shape of the seven constructors `NewX(opts ...Option) error`:
`&X{Err: applyOptions(opts)}`. -/
def NewTyped (c : Category) (opts : List GoOption) : GoError :=
  .typed c (applyOptions opts)

/-- Embeds `NewBadRequest`. -/
def NewBadRequest (opts : List GoOption) : GoError := NewTyped .badRequest opts

/-- Embeds `NewUnauthorized`. -/
def NewUnauthorized (opts : List GoOption) : GoError := NewTyped .unauthorized opts

/-- Embeds `NewNotFound`. -/
def NewNotFound (opts : List GoOption) : GoError := NewTyped .notFound opts

/-- Embeds `NewConflict`. -/
def NewConflict (opts : List GoOption) : GoError := NewTyped .conflict opts

/-- Embeds `NewInternal`. -/
def NewInternal (opts : List GoOption) : GoError := NewTyped .internal opts

/-- Embeds `NewFatal`. -/
def NewFatal (opts : List GoOption) : GoError := NewTyped .fatal opts

/-- Embeds `NewNoContent`. -/
def NewNoContent (opts : List GoOption) : GoError := NewTyped .noContent opts

/-- Embeds `stderrors.As(err, &target)` for a target of category `c`, as
used by the seven `IsX` checks: walk the error, at each step matching the
dynamic type against `*X` and otherwise following the `Unwrap() error`
method.  The wrapper types' `Unwrap` methods return the embedded record's
`Wrapped` field unconditionally; external errors in this universe expose no
`Unwrap` method, so the walk stops there. -/
def errorsAsGo (c : Category) : GoError → Bool
  | .typed c' r =>
    c' == c ||
      (match h : r.Wrapped with
       | some w => errorsAsGo c w
       | none => false)
  | .ext _ _ => false
termination_by e => sizeOf e
decreasing_by
  have := sizeOf_wrapped_lt h
  simp only [GoError.typed.sizeOf_spec]
  omega

/-- `stderrors.As` on a possibly-nil error: `As` never matches a nil
error. -/
def errorsAs (c : Category) : Option GoError → Bool
  | none => false
  | some e => errorsAsGo c e

/-- Embeds `IsBadRequest` (`error_types.go`). -/
def IsBadRequest (err : Option GoError) : Bool := errorsAs .badRequest err

/-- Embeds `IsUnauthorized`. -/
def IsUnauthorized (err : Option GoError) : Bool := errorsAs .unauthorized err

/-- Embeds `IsNotFound`. -/
def IsNotFound (err : Option GoError) : Bool := errorsAs .notFound err

/-- Embeds `IsConflict`. -/
def IsConflict (err : Option GoError) : Bool := errorsAs .conflict err

/-- Embeds `IsInternal`. -/
def IsInternal (err : Option GoError) : Bool := errorsAs .internal err

/-- Embeds `IsFatal`. -/
def IsFatal (err : Option GoError) : Bool := errorsAs .fatal err

/-- Embeds `IsNoContent`. -/
def IsNoContent (err : Option GoError) : Bool := errorsAs .noContent err

/-- Claim-side definition: the `Unwrap`-method chain of an error, in the
order `errors.As` visits it. -/
def unwrapChain : GoError → List GoError
  | .typed c r =>
    .typed c r ::
      (match h : r.Wrapped with
       | some w => unwrapChain w
       | none => [])
  | .ext i m => [.ext i m]
termination_by e => sizeOf e
decreasing_by
  have := sizeOf_wrapped_lt h
  simp only [GoError.typed.sizeOf_spec]
  omega

/-- Claim-side definition: whether an error is directly (not through
wrapping) a typed error of category `c`. -/
def isDirectlyTyped (c : Category) : GoError → Bool
  | .typed c' _ => c' == c
  | .ext _ _ => false

/-- Claim-side definition: whether an option is a status-code parameter. -/
def isCodeOpt : GoOption → Bool
  | .Code _ => true
  | _ => false

/-- Claim-side definition: the trace-entry parameters of an option list,
in parameter order. -/
def tracesOf (opts : List GoOption) : List ErrTrace :=
  opts.filterMap fun o =>
    match o with
    | .WithTrace t => some t
    | _ => none

/-- The `errors.As`-style check succeeds exactly when the unwrap chain
contains a typed error of the requested category. -/
theorem errorsAsGo_eq_chain (c : Category) (e : GoError) :
    errorsAsGo c e = (unwrapChain e).any (isDirectlyTyped c) := by
  match e with
  | .ext i m => simp [unwrapChain, isDirectlyTyped, errorsAsGo]
  | .typed c' r =>
    rw [errorsAsGo, unwrapChain]
    match h : r.Wrapped with
    | some w =>
      have ih := errorsAsGo_eq_chain c w
      simp only [List.any_cons, isDirectlyTyped, ih]
    | none =>
      simp [isDirectlyTyped]
termination_by sizeOf e
decreasing_by
  have := sizeOf_wrapped_lt h
  simp only [GoError.typed.sizeOf_spec]
  omega

/-- A freshly constructed error of category `c` passes the `As` check for
`c'` exactly when `c' = c`. -/
theorem errorsAs_newTyped_nil (c c' : Category) :
    errorsAs c' (some (NewTyped c [])) = (c' == c) := by
  have h0 : (applyOptions []).Wrapped = (none : Option GoError) := rfl
  rw [errorsAs, NewTyped, errorsAsGo]
  rw [h0]
  cases c <;> cases c' <;> rfl

/-- C1: for each of the seven categories C, `IsC(NewC())` is true and
`IsC'(NewC())` is false for every other category C'; and each `IsC` check
is chain-aware: any error whose `Unwrap` chain contains a C-typed error
satisfies `IsC`. -/
theorem category_roundtrip_and_chain_aware :
    (∀ c c' : Category, errorsAs c' (some (NewTyped c [])) = (c' == c)) ∧
    (IsBadRequest = errorsAs .badRequest ∧ IsUnauthorized = errorsAs .unauthorized ∧
     IsNotFound = errorsAs .notFound ∧ IsConflict = errorsAs .conflict ∧
     IsInternal = errorsAs .internal ∧ IsFatal = errorsAs .fatal ∧
     IsNoContent = errorsAs .noContent) ∧
    (NewBadRequest = NewTyped .badRequest ∧ NewUnauthorized = NewTyped .unauthorized ∧
     NewNotFound = NewTyped .notFound ∧ NewConflict = NewTyped .conflict ∧
     NewInternal = NewTyped .internal ∧ NewFatal = NewTyped .fatal ∧
     NewNoContent = NewTyped .noContent) ∧
    (∀ (c : Category) (e : GoError),
       (unwrapChain e).any (isDirectlyTyped c) = true → errorsAs c (some e) = true) := by
  refine ⟨errorsAs_newTyped_nil, ⟨rfl, rfl, rfl, rfl, rfl, rfl, rfl⟩,
    ⟨rfl, rfl, rfl, rfl, rfl, rfl, rfl⟩, ?_⟩
  intro c e h
  rw [errorsAs, errorsAsGo_eq_chain]
  exact h

/-- Witness for C1 at a concrete input: a NotFound error wrapped inside an
Internal error (via the cause chain) is still detected by `IsNotFound`. -/
theorem category_roundtrip_and_chain_aware_witness :
    errorsAs .notFound
      (some (.typed .internal { Wrapped := some (.typed .notFound {}) })) = true := by
  exact category_roundtrip_and_chain_aware.2.2.2 .notFound
    (.typed .internal { Wrapped := some (.typed .notFound {}) })
    (by simp [unwrapChain, isDirectlyTyped])

/-- Applying a non-code option never changes the `Code` field. -/
theorem applyOpt_Code_of_not_code (e : Err) (o : GoOption) (h : isCodeOpt o = false) :
    (applyOpt e o).Code = e.Code := by
  cases o with
  | Cause w => cases w <;> rfl
  | Msg m => rfl
  | MsgF m => rfl
  | WithTrace t => rfl
  | Code n => simp [isCodeOpt] at h

/-- Folding a list of options containing no code parameter never changes
the `Code` field. -/
theorem foldl_Code_of_no_code (opts : List GoOption) :
    ∀ e : Err, opts.all (fun o => !isCodeOpt o) = true →
      (opts.foldl applyOpt e).Code = e.Code := by
  induction opts with
  | nil => intro e _; rfl
  | cons o rest ih =>
    intro e h
    rw [List.all_cons, Bool.and_eq_true] at h
    rw [List.foldl_cons, ih _ h.2, applyOpt_Code_of_not_code]
    simpa using h.1

/-- C2: `GetCode` is 0 on nil and non-typed errors; a typed error built
with an explicit non-zero code parameter reads back that code regardless
of category; otherwise the category default applies, and the defaults are
BadRequest 400, Unauthorized 403, NotFound 404, Conflict 409, Internal
500, Fatal 500, NoContent 204. -/
theorem getCode_resolution :
    GetCode none = 0 ∧
    (∀ (i : Nat) (m : String), GetCode (some (.ext i m)) = 0) ∧
    (∀ (c : Category) (pre post : List GoOption) (n : Int), n ≠ 0 →
       post.all (fun o => !isCodeOpt o) = true →
       GetCode (some (NewTyped c (pre ++ .Code n :: post))) = n) ∧
    (∀ (c : Category) (opts : List GoOption),
       opts.all (fun o => !isCodeOpt o) = true →
       (applyOptions opts).Code = 0 ∧
         GetCode (some (NewTyped c opts)) = defaultCode c) ∧
    (defaultCode .badRequest = 400 ∧ defaultCode .unauthorized = 403 ∧
     defaultCode .notFound = 404 ∧ defaultCode .conflict = 409 ∧
     defaultCode .internal = 500 ∧ defaultCode .fatal = 500 ∧
     defaultCode .noContent = 204) := by
  refine ⟨rfl, fun i m => rfl, ?_, ?_, ⟨rfl, rfl, rfl, rfl, rfl, rfl, rfl⟩⟩
  · intro c pre post n hn hpost
    have hcode : (applyOptions (pre ++ .Code n :: post)).Code = n := by
      rw [applyOptions, List.foldl_append, List.foldl_cons,
        foldl_Code_of_no_code post _ hpost]
      rfl
    show typedGetCode c (applyOptions (pre ++ .Code n :: post)) = n
    rw [typedGetCode, hcode]
    simp [hn]
  · intro c opts hopts
    have hcode : (applyOptions opts).Code = 0 :=
      foldl_Code_of_no_code opts _ hopts
    refine ⟨hcode, ?_⟩
    show typedGetCode c (applyOptions opts) = defaultCode c
    rw [typedGetCode, hcode]
    simp

/-- Witness for C2 at concrete inputs: an explicit code 422 wins over the
Fatal default even with later non-code parameters, and a code-free
NotFound construction reads back 404. -/
theorem getCode_resolution_witness :
    GetCode (some (NewTyped .fatal
      ([.Msg "m"] ++ .Code 422 :: [.WithTrace ⟨"a.go", "f", 3⟩]))) = 422 ∧
    GetCode (some (NewTyped .notFound [.Msg "missing"])) = defaultCode .notFound := by
  constructor
  · exact getCode_resolution.2.2.1 .fatal [.Msg "m"] [.WithTrace ⟨"a.go", "f", 3⟩]
      422 (by decide) (by decide)
  · exact (getCode_resolution.2.2.2.1 .notFound [.Msg "missing"] (by decide)).2

/-- C3 counterexample: `NewNotFound()` is built with no wrapped-error
parameter, so the claim requires `Unwrap` to return nil on it; the code
returns the error itself (both cause and message are empty, so the
early-return branch of `Unwrap` fires). -/
theorem unwrap_claim_counterexample :
    (applyOptions ([] : List GoOption)).Wrapped = none ∧
    Unwrap (some (NewNotFound [])) = some (NewNotFound []) ∧
    Unwrap (some (NewNotFound [])) ≠ none := by
  refine ⟨rfl, rfl, ?_⟩
  intro h
  exact Option.noConfusion ((rfl : some (NewNotFound []) = Unwrap (some (NewNotFound []))).trans h)

/-- C3 amended: for a non-nil typed error whose cause or message is
non-empty, `Unwrap` returns the stored `Wrapped` value (nil when no
wrapped-error parameter was given); when both cause and message are empty,
`Unwrap` returns the error itself instead.  In particular, for an external
error E with a non-empty rendered message, `Unwrap(NewNotFound(Cause(E)))`
is E itself. -/
theorem unwrap_returns_wrapped :
    (∀ (c : Category) (r : Err), r.Cause ≠ "" ∨ r.Message ≠ "" →
       Unwrap (some (.typed c r)) = r.Wrapped) ∧
    (∀ (c : Category) (r : Err), r.Cause = "" → r.Message = "" →
       Unwrap (some (.typed c r)) = some (.typed c r)) ∧
    (∀ (i : Nat) (m : String), m ≠ "" →
       Unwrap (some (NewNotFound [.Cause (some (.ext i m))])) = some (.ext i m)) := by
  refine ⟨?_, ?_, ?_⟩
  · intro c r h
    show (if r.Cause = "" ∧ r.Message = "" then some (.typed c r) else r.Wrapped) = r.Wrapped
    rcases h with h | h <;> simp [h]
  · intro c r h1 h2
    show (if r.Cause = "" ∧ r.Message = "" then some (.typed c r) else r.Wrapped)
      = some (.typed c r)
    simp [h1, h2]
  · intro i m hm
    have hrec : applyOptions [.Cause (some (.ext i m))] =
        ({ Cause := m, Wrapped := some (.ext i m) } : Err) := rfl
    show (if (applyOptions [.Cause (some (.ext i m))]).Cause = "" ∧
            (applyOptions [.Cause (some (.ext i m))]).Message = ""
          then some (NewNotFound [.Cause (some (.ext i m))])
          else (applyOptions [.Cause (some (.ext i m))]).Wrapped) = some (.ext i m)
    rw [hrec]
    simp [hm]

/-- Witness for C3 (amended) at concrete inputs. -/
theorem unwrap_returns_wrapped_witness :
    Unwrap (some (.typed .internal ({ Cause := "db down" } : Err))) = none ∧
    Unwrap (some (NewNotFound [.Cause (some (.ext 7 "db down"))])) = some (.ext 7 "db down") := by
  constructor
  · exact unwrap_returns_wrapped.1 .internal ({ Cause := "db down" } : Err)
      (Or.inl (by decide))
  · exact unwrap_returns_wrapped.2.2 7 "db down" (by decide)

/-- No option ever touches the mutex field. -/
theorem applyOpt_mu (e : Err) (o : GoOption) : (applyOpt e o).mu = e.mu := by
  cases o with
  | Cause w => cases w <;> rfl
  | Msg m => rfl
  | MsgF m => rfl
  | WithTrace t => rfl
  | Code n => rfl

/-- Every record produced by `applyOptions` carries a nil mutex pointer:
the fold starts from the Go zero value and no option initializes `mu`. -/
theorem applyOptions_mu (opts : List GoOption) : (applyOptions opts).mu = false := by
  rw [applyOptions]
  induction opts using List.reverseRecOn with
  | nil => rfl
  | append_singleton rest o ih =>
    rw [List.foldl_append, List.foldl_cons, List.foldl_nil, applyOpt_mu]
    exact ih

/-- C6: `Stack` is indeed a no-op returning its argument on nil and on
non-typed errors, but on a typed error (here the `TestStack` scenario,
`NewInternal(Msg("original"), WithTrace())` followed by one `Stack` call)
it dereferences the nil mutex pointer and panics instead of appending. -/
theorem stack_append_behavior :
    (∀ t : ErrTrace, Stack none t = RunResult.ok none) ∧
    (∀ (i : Nat) (m : String) (t : ErrTrace),
       Stack (some (.ext i m)) t = RunResult.ok (some (.ext i m))) ∧
    Stack (some (NewInternal [.Msg "original", .WithTrace ⟨"error_test.go", "TestStack", 279⟩]))
        ⟨"error_test.go", "TestStack", 280⟩ = RunResult.nilDeref := by
  refine ⟨fun t => rfl, fun i m t => rfl, ?_⟩
  simp only [NewInternal, Stack, NewTyped, applyOptions_mu, Bool.false_eq_true, if_false]

/-- C8: `GetStack` returns the empty list on nil and on non-typed errors,
but on every constructor-produced typed error it dereferences the nil
mutex pointer in `rlock()` and panics before reaching the copy, so no
defensive copy is ever produced. -/
theorem getStack_always_nil_deref :
    GetStack none = RunResult.ok [] ∧
    (∀ (i : Nat) (m : String), GetStack (some (.ext i m)) = RunResult.ok []) ∧
    (∀ (c : Category) (opts : List GoOption),
       GetStack (some (NewTyped c opts)) = RunResult.nilDeref) := by
  refine ⟨rfl, fun i m => rfl, ?_⟩
  intro c opts
  simp only [GetStack, NewTyped, extractErr, applyOptions_mu, Bool.false_eq_true, if_false]

/-- Applying an option that is not a trace parameter leaves `Trace`
unchanged. -/
theorem applyOpt_Trace_of_not_trace (e : Err) (o : GoOption)
    (h : tracesOf [o] = []) : (applyOpt e o).Trace = e.Trace := by
  cases o with
  | Cause w => cases w <;> rfl
  | Msg m => rfl
  | MsgF m => rfl
  | WithTrace t => simp [tracesOf] at h
  | Code n => rfl

/-- Applying an option that is not a trace parameter leaves the stack
unchanged. -/
theorem applyOpt_Stack_of_not_trace (e : Err) (o : GoOption)
    (h : tracesOf [o] = []) : (applyOpt e o).Stack = e.Stack := by
  cases o with
  | Cause w => cases w <;> rfl
  | Msg m => rfl
  | MsgF m => rfl
  | WithTrace t => simp [tracesOf] at h
  | Code n => rfl

/-- Folding the options appends exactly the trace parameters, in parameter
order, to the stack. -/
theorem foldl_Stack_traces (opts : List GoOption) (e : Err) :
    (opts.foldl applyOpt e).Stack = e.Stack ++ tracesOf opts := by
  induction opts using List.reverseRecOn with
  | nil => simp [tracesOf]
  | append_singleton rest o ih =>
    rw [List.foldl_append, List.foldl_cons, List.foldl_nil]
    rw [tracesOf, List.filterMap_append, ← tracesOf, ← tracesOf]
    cases o with
    | WithTrace t =>
      show (rest.foldl applyOpt e).Stack ++ [t] = e.Stack ++ (tracesOf rest ++ tracesOf [.WithTrace t])
      rw [ih]
      simp [tracesOf]
    | Cause w =>
      rcases w with _ | w
      · rw [show applyOpt (rest.foldl applyOpt e) (.Cause none) = rest.foldl applyOpt e from rfl]
        rw [ih]
        simp [tracesOf]
      · rw [show (applyOpt (rest.foldl applyOpt e) (.Cause (some w))).Stack
              = (rest.foldl applyOpt e).Stack from rfl]
        rw [ih]
        simp [tracesOf]
    | Msg m =>
      rw [show (applyOpt (rest.foldl applyOpt e) (.Msg m)).Stack
            = (rest.foldl applyOpt e).Stack from rfl]
      rw [ih]
      simp [tracesOf]
    | MsgF m =>
      rw [show (applyOpt (rest.foldl applyOpt e) (.MsgF m)).Stack
            = (rest.foldl applyOpt e).Stack from rfl]
      rw [ih]
      simp [tracesOf]
    | Code n =>
      rw [show (applyOpt (rest.foldl applyOpt e) (.Code n)).Stack
            = (rest.foldl applyOpt e).Stack from rfl]
      rw [ih]
      simp [tracesOf]

/-- The `Trace` field ends up holding the last trace parameter. -/
theorem foldl_Trace_last (opts : List GoOption) (e : Err) (t : ErrTrace)
    (h : (tracesOf opts).getLast? = some t) :
    (opts.foldl applyOpt e).Trace = t := by
  induction opts using List.reverseRecOn generalizing t with
  | nil => simp [tracesOf] at h
  | append_singleton rest o ih =>
    rw [List.foldl_append, List.foldl_cons, List.foldl_nil]
    rw [tracesOf, List.filterMap_append, ← tracesOf, ← tracesOf] at h
    cases ho : tracesOf [o] with
    | nil =>
      rw [ho, List.append_nil] at h
      rw [applyOpt_Trace_of_not_trace _ o ho]
      exact ih t h
    | cons t0 ts =>
      have hsing : tracesOf [o] = [t0] ∧ (applyOpt (rest.foldl applyOpt e) o).Trace = t0 := by
        cases o with
        | WithTrace t1 =>
          simp only [tracesOf, List.filterMap] at ho
          simp only [tracesOf]
          cases ho
          exact ⟨rfl, rfl⟩
        | Cause w =>
          rcases w with _ | w <;> simp [tracesOf] at ho
        | Msg m => simp [tracesOf] at ho
        | MsgF m => simp [tracesOf] at ho
        | Code n => simp [tracesOf] at ho
      rw [hsing.1] at h
      rw [List.getLast?_concat] at h
      rw [hsing.2]
      exact (Option.some.injEq _ _ ▸ h).symm ▸ rfl

/-- C5 counterexample: with two trace parameters the first does not win;
the constructor stores the second one as `initialTrace` (while both are
appended, in order, to the history). -/
theorem trace_first_wins_counterexample :
    (applyOptions [.WithTrace ⟨"a.go", "f", 1⟩, .WithTrace ⟨"b.go", "g", 2⟩]).Trace
        = ⟨"b.go", "g", 2⟩ ∧
    (applyOptions [.WithTrace ⟨"a.go", "f", 1⟩, .WithTrace ⟨"b.go", "g", 2⟩]).Trace
        ≠ ⟨"a.go", "f", 1⟩ ∧
    (applyOptions [.WithTrace ⟨"a.go", "f", 1⟩, .WithTrace ⟨"b.go", "g", 2⟩]).Stack
        = [⟨"a.go", "f", 1⟩, ⟨"b.go", "g", 2⟩] := by
  refine ⟨rfl, ?_, rfl⟩
  intro h
  rw [show (applyOptions [.WithTrace ⟨"a.go", "f", 1⟩, .WithTrace ⟨"b.go", "g", 2⟩]).Trace
        = ⟨"b.go", "g", 2⟩ from rfl] at h
  exact absurd h (by decide)

/-- C5 amended: when a constructor receives several trace parameters, the
LAST one becomes `initialTrace` (each `WithTrace` overwrites the field),
and every trace parameter is appended, in parameter order, to the trace
history. -/
theorem trace_last_wins_all_appended :
    (∀ opts : List GoOption, (applyOptions opts).Stack = tracesOf opts) ∧
    (∀ (opts : List GoOption) (t : ErrTrace), (tracesOf opts).getLast? = some t →
       (applyOptions opts).Trace = t) := by
  constructor
  · intro opts
    rw [applyOptions, foldl_Stack_traces]
    rfl
  · intro opts t h
    exact foldl_Trace_last opts _ t h

/-- Witness for C5 (amended) at a concrete input with two distinct trace
parameters separated by a message parameter. -/
theorem trace_last_wins_all_appended_witness :
    (applyOptions [.WithTrace ⟨"a.go", "f", 1⟩, .Msg "m", .WithTrace ⟨"b.go", "g", 2⟩]).Stack
        = [⟨"a.go", "f", 1⟩, ⟨"b.go", "g", 2⟩] ∧
    (applyOptions [.WithTrace ⟨"a.go", "f", 1⟩, .Msg "m", .WithTrace ⟨"b.go", "g", 2⟩]).Trace
        = ⟨"b.go", "g", 2⟩ := by
  constructor
  · rw [trace_last_wins_all_appended.1]
    rfl
  · exact trace_last_wins_all_appended.2
      [.WithTrace ⟨"a.go", "f", 1⟩, .Msg "m", .WithTrace ⟨"b.go", "g", 2⟩]
      ⟨"b.go", "g", 2⟩ rfl

/-- C7: construction is total and permissive: zero parameters give a valid
typed error with empty message, empty cause, no wrapped error and the
category default code, and for every combination of parameters the
constructor produces a typed error of its category (so the `IsC` check and
the `TypedError` extraction succeed).  The settled design's parameter set
is the closed `Option` type, so ill-typed parameters are impossible rather
than ignored, and no parameter combination can make construction fail. -/
theorem construction_never_fails :
    ((applyOptions []).Message = "" ∧ (applyOptions []).Cause = "" ∧
     (applyOptions []).Wrapped = none) ∧
    (∀ c : Category, GetCode (some (NewTyped c [])) = defaultCode c) ∧
    (∀ (c : Category) (opts : List GoOption),
       extractErr (some (NewTyped c opts)) = some (applyOptions opts)) ∧
    (∀ (c : Category) (opts : List GoOption),
       errorsAs c (some (NewTyped c opts)) = true) := by
  refine ⟨⟨rfl, rfl, rfl⟩, ?_, fun c opts => rfl, ?_⟩
  · intro c
    show typedGetCode c (applyOptions []) = defaultCode c
    rw [typedGetCode]
    simp [show (applyOptions []).Code = 0 from rfl]
  · intro c opts
    simp [errorsAs, NewTyped, errorsAsGo]

/-- C9: in the `Error()` rendering of a typed error that has an initial
trace, a cause longer than 200 characters is displayed as exactly its
first 200 characters followed by the `"..."` marker, while `GetCause`
still returns the full stored cause. -/
theorem cause_truncated_in_rendering (c : Category) (r : Err)
    (hline : r.Trace.Line ≠ 0) (hlen : maxCauseLength < r.Cause.length) :
    errorString (.typed c r)
      = (r.Cause.take maxCauseLength ++ "...") ++ ": " ++ r.Message ++ " (at "
          ++ r.Trace.Function ++ ":" ++ toString r.Trace.Line ++ ")" ∧
    GetCause (some (.typed c r)) = r.Cause := by
  have hcne : r.Cause.take maxCauseLength ++ "..." ≠ "" := by
    intro h
    have hl := congrArg String.length h
    rw [String.length_append] at hl
    have h3 : "...".length = 3 := rfl
    have h0 : ("" : String).length = 0 := rfl
    omega
  have hcause_ne : r.Cause ≠ "" := by
    intro h
    rw [h] at hlen
    simp [maxCauseLength] at hlen
  constructor
  · show Err.Error r = _
    rw [Err.Error]
    rw [if_neg hline]
    simp only [if_pos hlen]
    rw [if_neg hcne]
  · show (if r.Cause = "" ∧ r.Message ≠ "" then r.Message
          else if r.Cause = "" ∧ r.Message = "" then errorString (.typed c r)
          else r.Cause) = r.Cause
    simp [hcause_ne]

/-- Concrete record for the C9 witness: a 300-character cause with a
trace. -/
def longCauseRec : Err :=
  { Cause := String.mk (List.replicate 300 'a'),
    Message := "test",
    Trace := ⟨"t.go", "TestX", 10⟩ }

set_option maxRecDepth 8192 in
/-- Witness for C9 at the concrete 300-character cause. -/
theorem cause_truncated_in_rendering_witness :
    maxCauseLength < longCauseRec.Cause.length ∧
    errorString (.typed .internal longCauseRec)
      = (longCauseRec.Cause.take maxCauseLength ++ "...") ++ ": " ++ longCauseRec.Message
          ++ " (at " ++ longCauseRec.Trace.Function ++ ":"
          ++ toString longCauseRec.Trace.Line ++ ")" ∧
    GetCause (some (.typed .internal longCauseRec)) = longCauseRec.Cause := by
  refine ⟨by decide, ?_, ?_⟩
  · exact (cause_truncated_in_rendering .internal longCauseRec (by decide) (by decide)).1
  · exact (cause_truncated_in_rendering .internal longCauseRec (by decide) (by decide)).2

/-- C10: a nil wrapped-error construction parameter is a complete no-op:
applying `Cause(nil)` leaves the record untouched (so its rendered message
is never computed), and a construction that includes it yields exactly the
record of the same construction without it, with empty cause and nil
wrapped error. -/
theorem nil_cause_ignored :
    (∀ e : Err, applyOpt e (.Cause none) = e) ∧
    (∀ l1 l2 : List GoOption, applyOptions (l1 ++ .Cause none :: l2) = applyOptions (l1 ++ l2)) ∧
    (applyOptions [.Cause none]).Cause = "" ∧
    (applyOptions [.Cause none]).Wrapped = none := by
  have h1 : ∀ e : Err, applyOpt e (.Cause none) = e := fun e => rfl
  refine ⟨h1, ?_, rfl, rfl⟩
  intro l1 l2
  rw [applyOptions, applyOptions, List.foldl_append, List.foldl_cons, h1, List.foldl_append]

end Errors
